import Mathlib

/-!
Verification of the asynchronous video-transcription task pipeline of the
AI-design repository (speech-to-text service: `controllers/taskController.js`,
`models/Task.js`, `utils/fileHandler.js`, `services/videoProcessor.js`) and of
the agent-registry registration contract.

The JavaScript code is shallowly embedded: the Mongo-backed task store becomes
an explicit record threaded through the run, the filesystem becomes a list of
existing paths, and every external effect (HTTP download, ffmpeg, the Groq
transcription API, database writes, filesystem faults) is an outcome drawn
from an explicit environment so that theorems quantify over all behaviours of
the external world.
-/

namespace STT

/-- The `status` enum of `taskSchema` in `models/Task.js`. -/
inductive Status
  | PENDING
  | DOWNLOADING
  | EXTRACTING_AUDIO
  | TRANSCRIBING
  | DONE
  | FAILED
deriving DecidableEq, Repr

/-- Position of a status in the pipeline order of `models/Task.js`
(`FAILED` is terminal and reachable from any non-terminal state, so it is
ranked above every other status). -/
def Status.rank : Status → Nat
  | .PENDING => 0
  | .DOWNLOADING => 1
  | Status.EXTRACTING_AUDIO => 2
  | .TRANSCRIBING => 3
  | .DONE => 4
  | .FAILED => 5

/-- Statuses `DONE` and `FAILED` are terminal. -/
def Status.isTerminal : Status → Bool
  | .DONE => true
  | .FAILED => true
  | _ => false

/-- The task document as defined by `taskSchema` in `models/Task.js`: its
data paths are `url` (marked `required: true`; `none` models the path being
unset on a document), `status`, `text` (default `null` — this, not
`transcript`, is the schema's result field) and `errorMessage` (default
`null`).  JavaScript `null`/absence is `Option.none`. -/
structure TaskRecord where
  url : Option String
  status : Status
  text : Option String
  errorMessage : Option String
deriving DecidableEq, Repr

/-- The document built by `new Task({ videoUrl })` in `submitTask`: the
schema has no `videoUrl` path, so under mongoose's default strict mode that
field is dropped and the required `url` path is left unset; the schema
defaults give status `PENDING` and null `text`/`errorMessage`. -/
def initialTask : TaskRecord :=
  { url := none, status := .PENDING, text := none, errorMessage := none }

/-- Mongoose document validation as run by `save()`: every path marked
`required` must be set — `taskSchema` requires exactly `url`. -/
def validateTask (d : TaskRecord) : Bool :=
  d.url.isSome

/-- Outcome of one `Task.findByIdAndUpdate` call: the write applies and
returns the document, or no document matches (mongoose returns `null`), or
the database itself errors (the promise rejects). -/
inductive DbOutcome
  | ok
  | notFound
  | dbError
deriving DecidableEq, Repr

/-- Filesystem paths are modelled as segment lists (the result of
`path.join`), so that "file under directory" is list-prefix order. -/
abbrev FsPath := List String

/-- Fault model for `fs-extra`: `pathExists` or `remove` may reject on a
given path. -/
structure FsEnv where
  existsFails : FsPath → Bool
  removeFails : FsPath → Bool

/-- The directory `config.tempDir` resolved in `config/index.js`. -/
def tempDir : String := "temp_files"

/-- Default of `config.downloadTimeout` from `config/index.js`. -/
def downloadTimeout : Nat := 120000

/-- Result of `path.join(config.tempDir, taskId + "_downloaded" + suffix)`
from `downloadVideoFromUrl` in `utils/fileHandler.js`. -/
def videoPath (taskId suffix : String) : FsPath :=
  [tempDir, taskId ++ "_downloaded" ++ suffix]

/-- Result of `getFullAudioPath` in `services/videoProcessor.js`: the stem
of the downloaded video (`path.parse(videoPath).name`, which drops the
extension) with `_full_audio.mp3` appended, inside `config.tempDir`. -/
def fullAudioPath (taskId : String) : FsPath :=
  [tempDir, taskId ++ "_downloaded_full_audio.mp3"]

/-- The per-task chunk directory `path.join(config.tempDir, taskId + "_chunks")`
used by `splitAudio` and `cleanupChunks`. -/
def chunkDir (taskId : String) : FsPath :=
  [tempDir, taskId ++ "_chunks"]

/-- Zero-padded three-digit index used by the `chunk_%03d.mp3` pattern. -/
def pad3 (i : Nat) : String :=
  if i < 10 then "00" ++ toString i
  else if i < 100 then "0" ++ toString i
  else toString i

/-- Path of the i-th chunk file produced by `splitAudio`. -/
def chunkPath (taskId : String) (i : Nat) : FsPath :=
  chunkDir taskId ++ ["chunk_" ++ pad3 i ++ ".mp3"]

/-- The sorted chunk paths returned by `splitAudio` when `n` chunk files
were produced. -/
def chunkPathList (taskId : String) (n : Nat) : List FsPath :=
  (List.range n).map (chunkPath taskId)

/-- Filesystem model: the list of existing paths.  Creating a file inserts
its path (idempotently). -/
def fsInsert (fs : List FsPath) (p : FsPath) : List FsPath :=
  if fs.contains p then fs else fs ++ [p]

/-- Create several files. -/
def fsInsertMany (fs : List FsPath) (ps : List FsPath) : List FsPath :=
  ps.foldl fsInsert fs

/-- Semantics of `fs.remove p` of `fs-extra`: deletes `p` and, when `p` is a
directory, everything under it (any path that has `p` as a proper prefix). -/
def fsRemove (fs : List FsPath) (p : FsPath) : List FsPath :=
  fs.filter (fun q => !(decide (q = p ∨ p <+: q)))

/-- The `try { if (await fs.pathExists(p)) await fs.remove(p) }` body shared
by `cleanupFiles` and `cleanupChunks`; either filesystem call may reject. -/
def removeIfExists (fe : FsEnv) (fs : List FsPath) (p : FsPath) :
    Except String (List FsPath) :=
  if fe.existsFails p then .error "stat failed"
  else if fs.contains p then
    if fe.removeFails p then .error "remove failed"
    else .ok (fsRemove fs p)
  else .ok fs

/-- Embedding of `cleanupFiles(...filePaths)` from `utils/fileHandler.js`:
for each path, skip it when falsy (`none`), otherwise remove it if it
exists, catching and logging any filesystem error so the loop continues. -/
def cleanupFiles (fe : FsEnv) (fs : List FsPath) :
    List (Option FsPath) → Except String (List FsPath)
  | [] => .ok fs
  | none :: rest => cleanupFiles fe fs rest
  | some p :: rest =>
    match removeIfExists fe fs p with
    | .error _ => cleanupFiles fe fs rest
    | .ok fs2 => cleanupFiles fe fs2 rest

/-- Embedding of `cleanupChunks(taskId)` from `services/videoProcessor.js`:
remove the task's chunk directory if it exists, catching and logging any
error. -/
def cleanupChunks (fe : FsEnv) (fs : List FsPath) (taskId : String) :
    Except String (List FsPath) :=
  match removeIfExists fe fs (chunkDir taskId) with
  | .error _ => .ok fs
  | .ok fs2 => .ok fs2

/-- Outcome of `splitAudio` decided by the external ffmpeg process and the
size check of the original file (`services/videoProcessor.js`):
`chunksProduced k` means `k + 1` chunk files were written (the zero-file case
is the two `noChunks` constructors); `noChunksSmall` is the fallback that
returns the original full-audio path; `noChunksLarge` rejects; `ffmpegErr`
is the ffmpeg `error` event (the chunk directory was already created by
`fs.ensureDir`); `setupErr` is a failure of `fs.ensureDir` itself. -/
inductive SplitOutcome
  | chunksProduced (k : Nat)
  | noChunksSmall
  | noChunksLarge
  | ffmpegErr (msg : String)
  | setupErr (msg : String)
deriving DecidableEq, Repr

/-- The external world of one `processVideoTask` run: what each stage's
external work would do, what each database write would do, the filesystem
fault model, and the file suffix derived from the video URL. -/
structure Env where
  suffix : String
  downloadRes : Except String Unit
  extractRes : Except String Unit
  splitRes : SplitOutcome
  transcribeRes : Except String (Option String)
  writeOutcome : Status → DbOutcome
  fsEnv : FsEnv

/-- Observable events of a run, in program order: each successful store
write, and each cleanup routine invocation of the `finally` block. -/
inductive Event
  | write (s : Status)
  | cleanupFilesRun
  | cleanupChunksRun
deriving DecidableEq, Repr

/-- State threaded through a run of `processVideoTask`: the persisted task
record, the filesystem, the event trace, and the local variables
`tempVideoPath` / `tempFullPath` (null until their stage succeeds). -/
structure RunState where
  store : TaskRecord
  fs : List FsPath
  events : List Event
  tempVideoPath : Option FsPath
  tempFullPath : Option FsPath

/-- Initial state of a run, right after `submitTask` saved the `PENDING`
record: no events yet, both path variables null. -/
def initState (fs0 : List FsPath) : RunState :=
  { store := initialTask, fs := fs0, events := [],
    tempVideoPath := none, tempFullPath := none }

/-- Embedding of `Task.findByIdAndUpdate(taskId, { status, ...fields })`.
On `ok` the
given fields are applied to the stored record (fields not present in the
update object are left unchanged) and the updated document is returned
(`true`); on `notFound` nothing is written and `null` (`false`) is
returned; on `dbError` the promise rejects.  Under mongoose's default
strict mode only schema paths of the update object are applied: `status`
and `errorMessage` are paths of `taskSchema` and apply, but the
controller's `transcript` field (passed here as `tr`) is not a schema path
— the schema's result field is `text` — so it is stripped and the stored
`text` is never touched. -/
def findByIdAndUpdate (env : Env) (s : RunState) (st : Status)
    (tr : Option (Option String)) (err : Option (Option String)) :
    Except String (RunState × Bool) :=
  match env.writeOutcome st with
  | .dbError => .error "database error"
  | .notFound => .ok (s, false)
  | .ok =>
    .ok ({ s with
            store := { url := s.store.url,
                       status := st,
                       text := s.store.text,
                       errorMessage := err.getD s.store.errorMessage },
            events := s.events ++ [.write st] }, true)

/-- The `splitAudio(tempFullPath, taskId)` call as seen from the controller:
its filesystem effect and its resolved chunk list or rejection. -/
def splitStep (env : Env) (taskId : String) (s : RunState) :
    RunState × Except String (List FsPath) :=
  match env.splitRes with
  | .setupErr m => (s, .error m)
  | .ffmpegErr m =>
    ({ s with fs := fsInsert s.fs (chunkDir taskId) },
     .error ("ffmpeg splitting error: " ++ m))
  | .chunksProduced k =>
    let paths := chunkPathList taskId (k + 1)
    ({ s with fs := fsInsertMany (fsInsert s.fs (chunkDir taskId)) paths },
     .ok paths)
  | .noChunksSmall =>
    ({ s with fs := fsInsert s.fs (chunkDir taskId) },
     .ok [fullAudioPath taskId])
  | .noChunksLarge =>
    ({ s with fs := fsInsert s.fs (chunkDir taskId) },
     .error "Audio splitting failed to produce chunk files for a large input.")

/-- Steps 4 and 5 of the `try` block of `processVideoTask`: the
`TRANSCRIBING` write, the `transcribeAudio` call with its
null/undefined-transcript guard, and the final `DONE` write storing the
transcript and clearing the error field. -/
def transcribePhase (env : Env) (s5 : RunState) : RunState × Option String :=
  match findByIdAndUpdate env s5 .TRANSCRIBING none none with
  | .error e => (s5, some e)
  | .ok (s6, found3) =>
    if found3 = false then
      (s6, some "Task not found before transcription.")
    else
      match env.transcribeRes with
      | .error m => (s6, some m)
      | .ok none =>
        (s6, some "Transcription resulted in empty text.")
      | .ok (some t) =>
        match findByIdAndUpdate env s6 .DONE (some (some t)) (some none) with
        | .error e => (s6, some e)
        | .ok (s7, found4) =>
          if found4 = false then
            (s7, some "Task not found when saving final result.")
          else (s7, none)

/-- The `try` block of `processVideoTask` in `controllers/taskController.js`:
returns the state reached together with the thrown error, if any.  Each
status write is checked for a `null` result (`Task not found ...`); each
stage rejection becomes the thrown error; a `null`/`undefined` transcript
triggers the empty-transcript guard. -/
def tryBody (env : Env) (taskId : String) (s0 : RunState) :
    RunState × Option String :=
  match findByIdAndUpdate env s0 .DOWNLOADING none none with
  | .error e => (s0, some e)
  | .ok (s1, found1) =>
    if found1 = false then (s1, some "Task not found after initial update.")
    else
      match env.downloadRes with
      | .error m => (s1, some m)
      | .ok _ =>
        let s2 : RunState :=
          { s1 with fs := fsInsert s1.fs (videoPath taskId env.suffix),
                    tempVideoPath := some (videoPath taskId env.suffix) }
        match findByIdAndUpdate env s2 Status.EXTRACTING_AUDIO none none with
        | .error e => (s2, some e)
        | .ok (s3, found2) =>
          if found2 = false then
            (s3, some "Task not found before audio extraction.")
          else
            match env.extractRes with
            | .error m => (s3, some m)
            | .ok _ =>
              let s4 : RunState :=
                { s3 with fs := fsInsert s3.fs (fullAudioPath taskId),
                          tempFullPath := some (fullAudioPath taskId) }
              match splitStep env taskId s4 with
              | (s5, .error m) => (s5, some m)
              | (s5, .ok _chunkPaths) => transcribePhase env s5

/-- The `catch` block: build the `Task failed: ...` message and attempt the
`FAILED` write; a failure of that write is itself caught and only logged. -/
def catchBlock (env : Env) (s : RunState) (m : String) : RunState :=
  match findByIdAndUpdate env s .FAILED none (some (some ("Task failed: " ++ m))) with
  | .error _ => s
  | .ok (s2, _found) => s2

/-- The `finally` block: always run `cleanupFiles(tempVideoPath, tempFullPath)`
and then `cleanupChunks(taskId)`.  Either routine rejecting would propagate
out of `processVideoTask`. -/
def finallyBlock (env : Env) (taskId : String) (s : RunState) :
    Except String RunState :=
  let s1 : RunState := { s with events := s.events ++ [.cleanupFilesRun] }
  match cleanupFiles env.fsEnv s1.fs [s.tempVideoPath, s.tempFullPath] with
  | .error e => .error e
  | .ok fs2 =>
    let s2 : RunState :=
      { s1 with fs := fs2, events := s1.events ++ [.cleanupChunksRun] }
    match cleanupChunks env.fsEnv fs2 taskId with
    | .error e => .error e
    | .ok fs3 => .ok { s2 with fs := fs3 }

/-- Embedding of `processVideoTask(taskId, videoUrl)`: run the `try` body,
convert any
thrown error to a `FAILED` write in the `catch` block, then run the
`finally` cleanup.  The second component is the exception escaping the whole
routine, if any (the `catch` swallows every `try` error, so only a `finally`
rejection could escape). -/
def processVideoTask (env : Env) (taskId : String) (s0 : RunState) :
    RunState × Option String :=
  let r := tryBody env taskId s0
  let s2 := match r.2 with
    | none => r.1
    | some m => catchBlock env r.1 m
  match finallyBlock env taskId s2 with
  | .ok s3 => (s3, none)
  | .error e => (s2, some e)

/-- The statuses successfully written by a run, in write order. -/
def statusWrites (evs : List Event) : List Status :=
  evs.filterMap (fun e =>
    match e with
    | .write s => some s
    | _ => none)

/-- The non-terminal pipeline stage order of the task schema, followed by
`DONE`: the order in which the `try` block persists statuses. -/
def pipelineOrder : List Status :=
  [Status.DOWNLOADING, Status.EXTRACTING_AUDIO, Status.TRANSCRIBING, Status.DONE]

/-- Whether a `splitAudio` outcome rejects. -/
def SplitOutcome.isErr : SplitOutcome → Bool
  | .noChunksLarge => true
  | .ffmpegErr _ => true
  | .setupErr _ => true
  | _ => false

/-- Some pipeline stage's external work (download, audio extraction,
splitting, or transcription) throws in this environment. -/
def stageThrows (env : Env) : Bool :=
  !env.downloadRes.isOk || !env.extractRes.isOk || env.splitRes.isErr ||
    !env.transcribeRes.isOk

/-- The environment in which every store write of the happy path applies and
every stage's external work succeeds with a non-null transcript. -/
def envAllOk (env : Env) : Prop :=
  env.writeOutcome .DOWNLOADING = .ok ∧
  env.writeOutcome Status.EXTRACTING_AUDIO = .ok ∧
  env.writeOutcome .TRANSCRIBING = .ok ∧
  env.writeOutcome .DONE = .ok ∧
  env.downloadRes = .ok () ∧
  env.extractRes = .ok () ∧
  env.splitRes.isErr = false ∧
  ∃ t, env.transcribeRes = .ok (some t)

/-! ### The transcription stage (`transcribeAudio` in
`services/videoProcessor.js`) -/

/-- One audio chunk as the transcription loop observes it: its path, the
result of `fs.stat` (size in bytes, or a rejection), and the result of the
Groq transcription request (`none` models a response without a `text`
field; `error` a rejected request). -/
structure ChunkData where
  path : FsPath
  statRes : Except String Nat
  apiRes : Except String (Option String)

/-- The chunk loop of `transcribeAudio`, with `acc` the `combinedTranscript`
accumulator: a chunk whose `fs.stat` rejects or whose request throws is
caught-and-skipped, a chunk at or above the 25 MB limit or of zero size is
skipped by `continue`, a response whose `text` is missing or falsy (the
empty string) contributes nothing, and a truthy transcribed text is
appended followed by a space. -/
def transcribeLoop (acc : String) : List ChunkData → String
  | [] => acc
  | c :: rest =>
    match c.statRes with
    | .error _ => transcribeLoop acc rest
    | .ok size =>
      if 25 * 1024 * 1024 ≤ size then transcribeLoop acc rest
      else if size = 0 then transcribeLoop acc rest
      else
        match c.apiRes with
        | .error _ => transcribeLoop acc rest
        | .ok none => transcribeLoop acc rest
        | .ok (some t) =>
          if t = "" then transcribeLoop acc rest
          else transcribeLoop (acc ++ t ++ " ") rest

/-- JavaScript truthiness of the configuration string `config.groqApiKey`
(`undefined` or the empty string are falsy). -/
def jsFalsyKey : Option String → Bool
  | none => true
  | some s => s = ""

/-- Whitespace as stripped by JavaScript `String.prototype.trim` (restricted
to the ASCII whitespace the pipeline can produce). -/
def isJsSpace (c : Char) : Bool :=
  c = ' ' ∨ c = '\t' ∨ c = '\n' ∨ c = '\r'

/-- Model of JavaScript `String.prototype.trim`: drop leading and trailing
whitespace. -/
def jsTrim (s : String) : String :=
  String.mk (((s.data.dropWhile isJsSpace).reverse.dropWhile isJsSpace).reverse)

/-- Embedding of `transcribeAudio(audioChunkPaths)`: throw if the Groq API
key is not configured, else run the chunk loop on an empty accumulator and
return the combined transcript with trailing space trimmed.  The function
resolves with a (possibly empty) string on every other input. -/
def transcribeAudio (groqApiKey : Option String) (chunks : List ChunkData) :
    Except String String :=
  if jsFalsyKey groqApiKey then
    .error "Transcription failed: Groq API Key is not configured."
  else .ok (jsTrim (transcribeLoop "" chunks))

/-- A chunk the loop skips entirely: `fs.stat` rejected, size at or above
the 25 MB limit, zero size, or the transcription request threw. -/
def chunkSkipped (c : ChunkData) : Bool :=
  match c.statRes with
  | .error _ => true
  | .ok size =>
    (25 * 1024 * 1024 ≤ size : Bool) || (size = 0 : Bool) ||
      (match c.apiRes with
       | .error _ => true
       | .ok _ => false)

/-- The transcript a non-skipped chunk contributes (`none` when the Groq
response carried no text or a falsy empty text). -/
def chunkText (c : ChunkData) : Option String :=
  match c.apiRes with
  | .ok (some t) => if t = "" then none else some t
  | _ => none

/-! ### The download stage (`downloadVideoFromUrl` in
`utils/fileHandler.js`) -/

/-- Behaviour of the single axios request of `downloadVideoFromUrl`:
a response (whose body stream or file write may then fail), an axios
timeout (`ECONNABORTED`, request made, no response), an axios error
carrying a response status, an axios error with no response, or a
non-axios setup failure. -/
inductive AxiosOutcome
  | resp (status : Nat) (writeErr : Option String) (streamErr : Option String)
  | timeoutNoResponse
  | errResponse (status : Nat)
  | errNoResponse
  | errSetup (msg : String)
deriving DecidableEq, Repr

/-- Embedding of `downloadVideoFromUrl(videoUrl, taskId)`: resolves with the
temp file path on a 2xx response whose stream completes, and rejects with
the rethrown, human-readable message on every failure (a timeout falls into
the `error.request` branch: "No response received from server."). -/
def downloadVideoFromUrl (o : AxiosOutcome) (taskId suffix : String) :
    Except String FsPath :=
  match o with
  | .resp status writeErr streamErr =>
    if status < 200 ∨ 300 ≤ status then
      .error ("Download failed: Server responded with status code " ++
        toString status)
    else
      match writeErr with
      | some m => .error ("Failed to write video file: " ++ m)
      | none =>
        match streamErr with
        | some m => .error ("Download stream error: " ++ m)
        | none => .ok (videoPath taskId suffix)
  | .timeoutNoResponse =>
    .error "Download failed: No response received from server."
  | .errResponse st =>
    .error ("Download failed: Server responded with status " ++ toString st)
  | .errNoResponse =>
    .error "Download failed: No response received from server."
  | .errSetup m => .error ("Download failed: " ++ m)

/-- An outbound network call of the pipeline together with the timeout
option its code passes to the client. -/
structure NetCall where
  target : String
  timeoutMs : Option Nat
deriving DecidableEq, Repr

/-- The axios request of `downloadVideoFromUrl` carries
`timeout: config.downloadTimeout` in its options object. -/
def downloadNetCall : NetCall :=
  { target := "axios get videoUrl", timeoutMs := some downloadTimeout }

/-- The `groq.audio.transcriptions.create` request of `transcribeAudio`:
the Groq client is constructed with only `apiKey`, and the create call
passes only `file` and `model` — no timeout option appears in the code. -/
def groqNetCall : NetCall :=
  { target := "groq.audio.transcriptions.create", timeoutMs := none }

/-- All outbound network calls made by the processing pipeline. -/
def pipelineNetCalls : List NetCall :=
  [downloadNetCall, groqNetCall]

/-! ### The submission handler (`submitTask` in
`controllers/taskController.js`) -/

/-- Environment of one `submitTask` call: whether `new URL(u)` succeeds for
a given string (the host URL parser is an external collaborator), whether
the database write of `newTask.save()` would succeed once document
validation passed, and the id mongoose assigns. -/
structure SubmitEnv where
  urlParses : String → Bool
  dbSaveOk : Bool
  newId : String

/-- An HTTP response as built by the handler. -/
structure HttpResponse where
  status : Nat
  taskId : Option String
  message : Option String
deriving DecidableEq, Repr

/-- Embedding of `submitTask(req, res)`: reject a falsy `videoUrl` with 400,
reject an unparseable URL with 400, then build `new Task({ videoUrl })`
(strict mode drops `videoUrl`, leaving the required `url` path unset —
`initialTask`) and `await newTask.save()`: save first runs document
validation, which rejects when a required path is unset, and otherwise
performs the database write; any rejection is caught and answered 500.
Only a successful save reaches the code that fires `processVideoTask`
without awaiting it (third component: the detached job's id and url) and
responds 202 with the task id.  The second component is the record
persisted by the call (`none` when nothing was created). -/
def submitTask (env : SubmitEnv) (videoUrl : Option String) :
    HttpResponse × Option TaskRecord × Option (String × String) :=
  match videoUrl with
  | none =>
    ({ status := 400, taskId := none,
       message := some "Missing videoUrl in request body" }, none, none)
  | some u =>
    if u = "" then
      ({ status := 400, taskId := none,
         message := some "Missing videoUrl in request body" }, none, none)
    else if env.urlParses u = false then
      ({ status := 400, taskId := none,
         message := some "Invalid videoUrl format" }, none, none)
    else if validateTask initialTask = false then
      ({ status := 500, taskId := none,
         message := some "Failed to create processing task." }, none, none)
    else if env.dbSaveOk = false then
      ({ status := 500, taskId := none,
         message := some "Failed to create processing task." }, none, none)
    else
      ({ status := 202, taskId := some env.newId, message := none },
       some initialTask, some (env.newId, u))

/-- Result of one `if (await fs.pathExists(p)) await fs.remove(p)` step in
the absence of filesystem faults. -/
def removeStep (fs : List FsPath) (p : FsPath) : List FsPath :=
  if fs.contains p then fsRemove fs p else fs

/-- Remove an optional path (a possibly-null `tempVideoPath`/`tempFullPath`
variable) without faults. -/
def optRemove (fs : List FsPath) : Option FsPath → List FsPath
  | none => fs
  | some p => removeStep fs p

theorem mem_fsInsert {fs : List FsPath} {p q : FsPath} :
    q ∈ fsInsert fs p ↔ q ∈ fs ∨ q = p := by
  unfold fsInsert
  split
  · next h =>
    have hp : p ∈ fs := by simpa using h
    constructor
    · exact Or.inl
    · rintro (hq | rfl)
      · exact hq
      · exact hp
  · simp

theorem self_mem_fsInsert {fs : List FsPath} {p : FsPath} : p ∈ fsInsert fs p :=
  mem_fsInsert.2 (Or.inr rfl)

theorem mem_fsInsertMany {q : FsPath} :
    ∀ (ps : List FsPath) (fs : List FsPath),
      q ∈ fsInsertMany fs ps ↔ q ∈ fs ∨ q ∈ ps := by
  intro ps
  induction ps with
  | nil => intro fs; simp [fsInsertMany]
  | cons a as ih =>
    intro fs
    have : fsInsertMany fs (a :: as) = fsInsertMany (fsInsert fs a) as := rfl
    rw [this, ih, mem_fsInsert]
    simp
    tauto

theorem mem_fsRemove {fs : List FsPath} {p q : FsPath} :
    q ∈ fsRemove fs p ↔ q ∈ fs ∧ ¬(q = p ∨ p <+: q) := by
  simp [fsRemove, List.mem_filter]

theorem removeStep_subset {fs : List FsPath} {p q : FsPath}
    (h : q ∈ removeStep fs p) : q ∈ fs := by
  unfold removeStep at h
  split at h
  · exact (mem_fsRemove.1 h).1
  · exact h

theorem not_hit_of_mem_removeStep {fs : List FsPath} {p q : FsPath}
    (hp : p ∈ fs) (h : q ∈ removeStep fs p) : ¬(q = p ∨ p <+: q) := by
  unfold removeStep at h
  have hc : fs.contains p = true := by simpa using hp
  rw [if_pos hc] at h
  exact (mem_fsRemove.1 h).2

theorem optRemove_subset {fs : List FsPath} {o : Option FsPath} {q : FsPath}
    (h : q ∈ optRemove fs o) : q ∈ fs := by
  cases o with
  | none => exact h
  | some p => exact removeStep_subset h

theorem removeIfExists_noFault {fe : FsEnv} {fs : List FsPath} {p : FsPath}
    (h1 : fe.existsFails p = false) (h2 : fe.removeFails p = false) :
    removeIfExists fe fs p = .ok (removeStep fs p) := by
  unfold removeIfExists removeStep
  rw [h1]
  simp only [Bool.false_eq_true, if_false]
  split
  · rw [h2]
    simp
  · rfl

theorem cleanupFiles_isOk (fe : FsEnv) :
    ∀ (ps : List (Option FsPath)) (fs : List FsPath),
      ∃ fs2, cleanupFiles fe fs ps = .ok fs2 := by
  intro ps
  induction ps with
  | nil => intro fs; exact ⟨fs, rfl⟩
  | cons a as ih =>
    intro fs
    cases a with
    | none => simpa [cleanupFiles] using ih fs
    | some p =>
      rcases hri : removeIfExists fe fs p with e | fs2
      · simpa [cleanupFiles, hri] using ih fs
      · simpa [cleanupFiles, hri] using ih fs2

theorem cleanupChunks_isOk (fe : FsEnv) (fs : List FsPath) (taskId : String) :
    ∃ fs2, cleanupChunks fe fs taskId = .ok fs2 := by
  unfold cleanupChunks
  rcases hri : removeIfExists fe fs (chunkDir taskId) with e | fs2
  · exact ⟨fs, rfl⟩
  · exact ⟨fs2, rfl⟩

theorem cleanupFiles_pair_noFault {fe : FsEnv} {fs : List FsPath}
    {o1 o2 : Option FsPath}
    (h1 : ∀ p, o1 = some p → fe.existsFails p = false ∧ fe.removeFails p = false)
    (h2 : ∀ p, o2 = some p → fe.existsFails p = false ∧ fe.removeFails p = false) :
    cleanupFiles fe fs [o1, o2] = .ok (optRemove (optRemove fs o1) o2) := by
  cases o1 with
  | none =>
    cases o2 with
    | none => rfl
    | some b =>
      obtain ⟨hb1, hb2⟩ := h2 b rfl
      simp [cleanupFiles, optRemove, removeIfExists_noFault hb1 hb2]
  | some a =>
    obtain ⟨ha1, ha2⟩ := h1 a rfl
    cases o2 with
    | none =>
      simp [cleanupFiles, optRemove, removeIfExists_noFault ha1 ha2]
    | some b =>
      obtain ⟨hb1, hb2⟩ := h2 b rfl
      simp [cleanupFiles, optRemove, removeIfExists_noFault ha1 ha2,
        removeIfExists_noFault hb1 hb2]

theorem cleanupChunks_noFault {fe : FsEnv} {fs : List FsPath} {taskId : String}
    (h1 : fe.existsFails (chunkDir taskId) = false)
    (h2 : fe.removeFails (chunkDir taskId) = false) :
    cleanupChunks fe fs taskId = .ok (removeStep fs (chunkDir taskId)) := by
  simp [cleanupChunks, removeIfExists_noFault h1 h2]

theorem chunkPathList_spec {taskId : String} {n : Nat} :
    ∀ c ∈ chunkPathList taskId n, chunkDir taskId <+: c ∧ c ≠ chunkDir taskId := by
  intro c hc
  simp only [chunkPathList, List.mem_map] at hc
  obtain ⟨i, _, rfl⟩ := hc
  unfold chunkPath
  constructor
  · exact List.prefix_append _ _
  · intro h
    have := congrArg List.length h
    simp [chunkDir] at this

theorem two_seg_prefix_eq {a b c d : String} (h : [a, b] <+: [c, d]) :
    ([a, b] : FsPath) = [c, d] :=
  h.eq_of_length (by simp)

theorem removed_or_eq {fs : List FsPath} {p x : FsPath} (hx : x ∈ fs)
    (hnot : x ∉ removeStep fs p) (hcollapse : p <+: x → p = x) : x = p := by
  unfold removeStep at hnot
  by_cases hc : fs.contains p
  · rw [if_pos hc, mem_fsRemove] at hnot
    have : x = p ∨ p <+: x := by tauto
    rcases this with h | h
    · exact h
    · exact (hcollapse h).symm
  · rw [if_neg hc] at hnot
    exact absurd hx hnot

theorem clears_chain {fs0 : List FsPath} {vp fap cd : FsPath} {cs : List FsPath}
    (hcs : ∀ c ∈ cs, cd <+: c ∧ c ≠ cd)
    (hvf : vp <+: fap → vp = fap)
    (hvc : vp <+: cd → vp = cd)
    (hfc : fap <+: cd → fap = cd)
    {q : FsPath}
    (hq : q ∈ removeStep (removeStep (removeStep
      (fsInsertMany (fsInsert (fsInsert (fsInsert fs0 vp) fap) cd) cs) vp)
      fap) cd) :
    q ∈ fs0 := by
  have hqA2 := removeStep_subset hq
  have hqA1 := removeStep_subset hqA2
  have hqB := removeStep_subset hqA1
  have hvpB : vp ∈ fsInsertMany (fsInsert (fsInsert (fsInsert fs0 vp) fap) cd) cs := by
    rw [mem_fsInsertMany]
    exact Or.inl (mem_fsInsert.2 (Or.inl (mem_fsInsert.2 (Or.inl self_mem_fsInsert))))
  have hfapB : fap ∈ fsInsertMany (fsInsert (fsInsert (fsInsert fs0 vp) fap) cd) cs := by
    rw [mem_fsInsertMany]
    exact Or.inl (mem_fsInsert.2 (Or.inl self_mem_fsInsert))
  have hcdB : cd ∈ fsInsertMany (fsInsert (fsInsert (fsInsert fs0 vp) fap) cd) cs := by
    rw [mem_fsInsertMany]
    exact Or.inl self_mem_fsInsert
  have h1 : ¬(q = vp ∨ vp <+: q) := not_hit_of_mem_removeStep hvpB hqA1
  have h2 : ¬(q = fap ∨ fap <+: q) := by
    by_cases hmem : fap ∈ removeStep
        (fsInsertMany (fsInsert (fsInsert (fsInsert fs0 vp) fap) cd) cs) vp
    · exact not_hit_of_mem_removeStep hmem hqA2
    · have heq : fap = vp := removed_or_eq hfapB hmem hvf
      intro hc
      apply h1
      rw [heq] at hc
      exact hc
  have h3 : ¬(q = cd ∨ cd <+: q) := by
    by_cases hmem : cd ∈ removeStep (removeStep
        (fsInsertMany (fsInsert (fsInsert (fsInsert fs0 vp) fap) cd) cs) vp) fap
    · exact not_hit_of_mem_removeStep hmem hq
    · by_cases hmem1 : cd ∈ removeStep
          (fsInsertMany (fsInsert (fsInsert (fsInsert fs0 vp) fap) cd) cs) vp
      · have heq : cd = fap := removed_or_eq hmem1 hmem hfc
        intro hc
        apply h2
        rw [heq] at hc
        exact hc
      · have heq : cd = vp := removed_or_eq hcdB hmem1 hvc
        intro hc
        apply h1
        rw [heq] at hc
        exact hc
  rw [mem_fsInsertMany] at hqB
  rcases hqB with hin | hin
  · rcases mem_fsInsert.1 hin with hin2 | rfl
    · rcases mem_fsInsert.1 hin2 with hin3 | rfl
      · rcases mem_fsInsert.1 hin3 with h4 | rfl
        · exact h4
        · exact absurd (Or.inl rfl) h1
      · exact absurd (Or.inl rfl) h2
    · exact absurd (Or.inl rfl) h3
  · obtain ⟨hpre, _⟩ := hcs q hin
    exact absurd (Or.inr hpre) h3

theorem clears_nocd {fs0 : List FsPath} {vp fap cd : FsPath}
    (hvf : vp <+: fap → vp = fap) {q : FsPath}
    (hq : q ∈ removeStep (removeStep (removeStep
      (fsInsert (fsInsert fs0 vp) fap) vp) fap) cd) :
    q ∈ fs0 := by
  have hqA2 := removeStep_subset hq
  have hqA1 := removeStep_subset hqA2
  have hqB := removeStep_subset hqA1
  have hvpB : vp ∈ fsInsert (fsInsert fs0 vp) fap :=
    mem_fsInsert.2 (Or.inl self_mem_fsInsert)
  have h1 : ¬(q = vp ∨ vp <+: q) := not_hit_of_mem_removeStep hvpB hqA1
  have h2 : ¬(q = fap ∨ fap <+: q) := by
    by_cases hmem : fap ∈ removeStep (fsInsert (fsInsert fs0 vp) fap) vp
    · exact not_hit_of_mem_removeStep hmem hqA2
    · have heq : fap = vp := removed_or_eq self_mem_fsInsert hmem hvf
      intro hc
      apply h1
      rw [heq] at hc
      exact hc
  rcases mem_fsInsert.1 hqB with h | rfl
  · rcases mem_fsInsert.1 h with h4 | rfl
    · exact h4
    · exact absurd (Or.inl rfl) h1
  · exact absurd (Or.inl rfl) h2

theorem clears_vid {fs0 : List FsPath} {vp cd : FsPath} {q : FsPath}
    (hq : q ∈ removeStep (removeStep (fsInsert fs0 vp) vp) cd) : q ∈ fs0 := by
  have hqA1 := removeStep_subset hq
  have hqB := removeStep_subset hqA1
  have h1 : ¬(q = vp ∨ vp <+: q) :=
    not_hit_of_mem_removeStep self_mem_fsInsert hqA1
  rcases mem_fsInsert.1 hqB with h | rfl
  · exact h
  · exact absurd (Or.inl rfl) h1

theorem finallyBlock_spec (env : Env) (taskId : String) (s : RunState) :
    ∃ fs', finallyBlock env taskId s =
      .ok { store := s.store, fs := fs',
            events := s.events ++ [.cleanupFilesRun, .cleanupChunksRun],
            tempVideoPath := s.tempVideoPath, tempFullPath := s.tempFullPath } := by
  obtain ⟨fs2, h2⟩ :=
    cleanupFiles_isOk env.fsEnv [s.tempVideoPath, s.tempFullPath] s.fs
  obtain ⟨fs3, h3⟩ := cleanupChunks_isOk env.fsEnv fs2 taskId
  exact ⟨fs3, by simp [finallyBlock, h2, h3]⟩

theorem finallyBlock_noFault (env : Env) (taskId : String) (s : RunState)
    (h1 : ∀ p, s.tempVideoPath = some p →
      env.fsEnv.existsFails p = false ∧ env.fsEnv.removeFails p = false)
    (h2 : ∀ p, s.tempFullPath = some p →
      env.fsEnv.existsFails p = false ∧ env.fsEnv.removeFails p = false)
    (h3 : env.fsEnv.existsFails (chunkDir taskId) = false)
    (h4 : env.fsEnv.removeFails (chunkDir taskId) = false) :
    finallyBlock env taskId s =
      .ok { store := s.store,
            fs := removeStep (optRemove (optRemove s.fs s.tempVideoPath)
              s.tempFullPath) (chunkDir taskId),
            events := s.events ++ [.cleanupFilesRun, .cleanupChunksRun],
            tempVideoPath := s.tempVideoPath, tempFullPath := s.tempFullPath } := by
  have e1 := @cleanupFiles_pair_noFault env.fsEnv s.fs
    s.tempVideoPath s.tempFullPath h1 h2
  have e2 := @cleanupChunks_noFault env.fsEnv
    (optRemove (optRemove s.fs s.tempVideoPath) s.tempFullPath) taskId h3 h4
  simp [finallyBlock, e1, e2]

theorem catchBlock_ok (env : Env) (s : RunState) (m : String)
    (h : env.writeOutcome .FAILED = .ok) :
    catchBlock env s m = { s with
      store := { s.store with
                 status := .FAILED,
                 errorMessage := some ("Task failed: " ++ m) },
      events := s.events ++ [.write .FAILED] } := by
  simp [catchBlock, findByIdAndUpdate, h]

theorem catchBlock_notOk (env : Env) (s : RunState) (m : String)
    (h : ¬env.writeOutcome .FAILED = .ok) :
    catchBlock env s m = s := by
  unfold catchBlock findByIdAndUpdate
  cases hw : env.writeOutcome Status.FAILED
  · exact absurd hw h
  · rfl
  · rfl

theorem transcribePhase_spec (env : Env) (s5 : RunState) :
    (transcribePhase env s5).1.fs = s5.fs ∧
    (transcribePhase env s5).1.tempVideoPath = s5.tempVideoPath ∧
    (transcribePhase env s5).1.tempFullPath = s5.tempFullPath ∧
    (((transcribePhase env s5).1.events = s5.events ∧
      (transcribePhase env s5).1.store = s5.store ∧
      (transcribePhase env s5).2 ≠ none) ∨
     ((transcribePhase env s5).1.events = s5.events ++ [Event.write .TRANSCRIBING] ∧
      (transcribePhase env s5).1.store = { s5.store with status := Status.TRANSCRIBING } ∧
      (transcribePhase env s5).2 ≠ none) ∨
     (∃ t, env.transcribeRes = Except.ok (some t) ∧
      (transcribePhase env s5).1.events =
        s5.events ++ [Event.write .TRANSCRIBING, Event.write .DONE] ∧
      (transcribePhase env s5).1.store =
        { s5.store with status := Status.DONE, errorMessage := none } ∧
      (transcribePhase env s5).2 = none)) ∧
    ((env.writeOutcome .TRANSCRIBING = .ok ∧ env.writeOutcome .DONE = .ok ∧
      ∃ t, env.transcribeRes = Except.ok (some t)) ↔
      (transcribePhase env s5).2 = none) := by
  cases hw3 : env.writeOutcome Status.TRANSCRIBING with
  | dbError =>
    refine ⟨?_, ?_, ?_, Or.inl ⟨?_, ?_, ?_⟩, ?_⟩ <;>
      simp [transcribePhase, findByIdAndUpdate, hw3]
  | notFound =>
    refine ⟨?_, ?_, ?_, Or.inl ⟨?_, ?_, ?_⟩, ?_⟩ <;>
      simp [transcribePhase, findByIdAndUpdate, hw3]
  | ok =>
    rcases htr : env.transcribeRes with m | ot
    · refine ⟨?_, ?_, ?_, Or.inr (Or.inl ⟨?_, ?_, ?_⟩), ?_⟩ <;>
        simp [transcribePhase, findByIdAndUpdate, hw3, htr]
    · cases ot with
      | none =>
        refine ⟨?_, ?_, ?_, Or.inr (Or.inl ⟨?_, ?_, ?_⟩), ?_⟩ <;>
          simp [transcribePhase, findByIdAndUpdate, hw3, htr]
      | some t =>
        cases hw4 : env.writeOutcome Status.DONE with
        | dbError =>
          refine ⟨?_, ?_, ?_, Or.inr (Or.inl ⟨?_, ?_, ?_⟩), ?_⟩ <;>
            simp [transcribePhase, findByIdAndUpdate, hw3, htr, hw4]
        | notFound =>
          refine ⟨?_, ?_, ?_, Or.inr (Or.inl ⟨?_, ?_, ?_⟩), ?_⟩ <;>
            simp [transcribePhase, findByIdAndUpdate, hw3, htr, hw4]
        | ok =>
          refine ⟨?_, ?_, ?_, Or.inr (Or.inr ⟨t, rfl, ?_, ?_, ?_⟩), ?_⟩ <;>
            simp [transcribePhase, findByIdAndUpdate, hw3, htr, hw4]

/-- The possible filesystem/path-variable configurations at the end of the
`try` block: nothing created yet; the video downloaded; the full audio
extracted (with the chunk directory and any set of chunk files under it
possibly created by `splitAudio`). -/
def FsShape (env : Env) (taskId : String) (fs0 : List FsPath)
    (s : RunState) : Prop :=
  (s.fs = fs0 ∧ s.tempVideoPath = none ∧ s.tempFullPath = none) ∨
  (s.fs = fsInsert fs0 (videoPath taskId env.suffix) ∧
   s.tempVideoPath = some (videoPath taskId env.suffix) ∧
   s.tempFullPath = none) ∨
  (s.tempVideoPath = some (videoPath taskId env.suffix) ∧
   s.tempFullPath = some (fullAudioPath taskId) ∧
   (s.fs = fsInsert (fsInsert fs0 (videoPath taskId env.suffix))
      (fullAudioPath taskId) ∨
    ∃ cs, (∀ c ∈ cs, chunkDir taskId <+: c ∧ c ≠ chunkDir taskId) ∧
      s.fs = fsInsertMany (fsInsert (fsInsert
        (fsInsert fs0 (videoPath taskId env.suffix)) (fullAudioPath taskId))
        (chunkDir taskId)) cs))

theorem FsShape_congr {env : Env} {taskId : String} {fs0 : List FsPath}
    {s s' : RunState} (hfs : s.fs = s'.fs)
    (h1 : s.tempVideoPath = s'.tempVideoPath)
    (h2 : s.tempFullPath = s'.tempFullPath)
    (h : FsShape env taskId fs0 s') : FsShape env taskId fs0 s := by
  unfold FsShape at *
  rw [hfs, h1, h2]
  exact h

/-- Characterization of the result of the `try` block: some prefix of the
pipeline's statuses was written (and is reflected in the final record), the
stored `text` is never touched (the controller's `transcript` update field
is stripped by strict mode), the block completes without throwing exactly
when all four writes and all four stages succeeded, the error field is only
cleared, and the filesystem is in one of the `FsShape` configurations. -/
def TrySpec (env : Env) (taskId : String) (fs0 : List FsPath)
    (r : RunState × Option String) : Prop :=
  ∃ k, k ≤ 4 ∧
    r.1.events = (pipelineOrder.take k).map Event.write ∧
    r.1.store.status = ((pipelineOrder.take k).getLast?).getD Status.PENDING ∧
    r.1.store.text = none ∧
    (r.2 = none ↔ k = 4) ∧
    (k = 4 → ∃ t, env.transcribeRes = Except.ok (some t) ∧
      r.1.store.errorMessage = none ∧
      env.downloadRes = Except.ok () ∧ env.extractRes = Except.ok () ∧
      env.splitRes.isErr = false) ∧
    (k ≠ 4 → r.1.store.errorMessage = none) ∧
    (envAllOk env → k = 4) ∧
    FsShape env taskId fs0 r.1

theorem tryTail_spec (env : Env) (taskId : String) (fs0 : List FsPath)
    (s5 : RunState)
    (hev : s5.events = [Event.write Status.DOWNLOADING, Event.write Status.EXTRACTING_AUDIO])
    (hst : s5.store = { url := none, status := Status.EXTRACTING_AUDIO,
                        text := none, errorMessage := none })
    (hshape : FsShape env taskId fs0 s5)
    (hdl : env.downloadRes = Except.ok ())
    (hex : env.extractRes = Except.ok ())
    (hsperr : env.splitRes.isErr = false) :
    TrySpec env taskId fs0 (transcribePhase env s5) := by
  obtain ⟨hfs, hv1, hv2, hdisj, hiff⟩ := transcribePhase_spec env s5
  have hshape' : FsShape env taskId fs0 (transcribePhase env s5).1 :=
    FsShape_congr hfs hv1 hv2 hshape
  rcases hdisj with ⟨he, hs, hth⟩ | ⟨he, hs, hth⟩ | ⟨t, ht, he, hs, hth⟩
  · refine ⟨2, by decide, ?_, ?_, ?_, ?_, ?_, ?_, ?_, hshape'⟩
    · rw [he, hev]; rfl
    · rw [hs, hst]; rfl
    · rw [hs, hst]
    · constructor
      · intro h; exact absurd h hth
      · intro h; exact absurd h (by decide)
    · intro h; exact absurd h (by decide)
    · intro _; rw [hs, hst]
    · rintro ⟨-, -, h3, h4, -, -, -, h8⟩
      exact absurd (hiff.1 ⟨h3, h4, h8⟩) hth
  · refine ⟨3, by decide, ?_, ?_, ?_, ?_, ?_, ?_, ?_, hshape'⟩
    · rw [he, hev]; rfl
    · rw [hs, hst]; rfl
    · rw [hs, hst]
    · constructor
      · intro h; exact absurd h hth
      · intro h; exact absurd h (by decide)
    · intro h; exact absurd h (by decide)
    · intro _; rw [hs, hst]
    · rintro ⟨-, -, h3, h4, -, -, -, h8⟩
      exact absurd (hiff.1 ⟨h3, h4, h8⟩) hth
  · refine ⟨4, by decide, ?_, ?_, ?_, ?_, ?_, ?_, ?_, hshape'⟩
    · rw [he, hev]; rfl
    · rw [hs]; rfl
    · rw [hs, hst]
    · simp [hth]
    · intro _
      exact ⟨t, ht, by rw [hs], hdl, hex, hsperr⟩
    · intro h; exact absurd rfl h
    · intro _; rfl

theorem tryBody_spec (env : Env) (taskId : String) (fs0 : List FsPath) :
    TrySpec env taskId fs0 (tryBody env taskId (initState fs0)) := by
  cases hw1 : env.writeOutcome Status.DOWNLOADING with
  | dbError =>
    simp only [tryBody, findByIdAndUpdate, hw1]
    refine ⟨0, by decide, rfl, rfl, rfl, by simp, fun h => absurd h (by decide),
      fun _ => rfl, ?_, Or.inl ⟨rfl, rfl, rfl⟩⟩
    rintro ⟨h1, -⟩
    rw [hw1] at h1
    exact absurd h1 (by decide)
  | notFound =>
    simp [tryBody, findByIdAndUpdate, hw1]
    refine ⟨0, by decide, rfl, rfl, rfl, by simp, fun h => absurd h (by decide),
      fun _ => rfl, ?_, Or.inl ⟨rfl, rfl, rfl⟩⟩
    rintro ⟨h1, -⟩
    rw [hw1] at h1
    exact absurd h1 (by decide)
  | ok =>
    rcases hdl : env.downloadRes with m | u
    · simp [tryBody, findByIdAndUpdate, hw1, hdl]
      refine ⟨1, by decide, rfl, rfl, rfl, by simp, fun h => absurd h (by decide),
        fun _ => rfl, ?_, Or.inl ⟨rfl, rfl, rfl⟩⟩
      rintro ⟨-, -, -, -, h5, -⟩
      rw [hdl] at h5
      exact absurd h5 (by simp)
    · cases u
      cases hw2 : env.writeOutcome Status.EXTRACTING_AUDIO with
      | dbError =>
        simp [tryBody, findByIdAndUpdate, hw1, hdl, hw2]
        refine ⟨1, by decide, rfl, rfl, rfl, by simp, fun h => absurd h (by decide),
          fun _ => rfl, ?_, Or.inr (Or.inl ⟨rfl, rfl, rfl⟩)⟩
        rintro ⟨-, h2, -⟩
        rw [hw2] at h2
        exact absurd h2 (by decide)
      | notFound =>
        simp [tryBody, findByIdAndUpdate, hw1, hdl, hw2]
        refine ⟨1, by decide, rfl, rfl, rfl, by simp, fun h => absurd h (by decide),
          fun _ => rfl, ?_, Or.inr (Or.inl ⟨rfl, rfl, rfl⟩)⟩
        rintro ⟨-, h2, -⟩
        rw [hw2] at h2
        exact absurd h2 (by decide)
      | ok =>
        rcases hex : env.extractRes with m | u2
        · simp [tryBody, findByIdAndUpdate, hw1, hdl, hw2, hex]
          refine ⟨2, by decide, rfl, rfl, rfl, by simp, fun h => absurd h (by decide),
            fun _ => rfl, ?_, Or.inr (Or.inl ⟨rfl, rfl, rfl⟩)⟩
          rintro ⟨-, -, -, -, -, h6, -⟩
          rw [hex] at h6
          exact absurd h6 (by simp)
        · cases u2
          cases hsp : env.splitRes with
          | setupErr m =>
            simp [tryBody, findByIdAndUpdate, splitStep, hw1, hdl, hw2, hex, hsp]
            refine ⟨2, by decide, rfl, rfl, rfl, by simp, fun h => absurd h (by decide),
              fun _ => rfl, ?_, Or.inr (Or.inr ⟨rfl, rfl, Or.inl rfl⟩)⟩
            rintro ⟨-, -, -, -, -, -, h7, -⟩
            rw [hsp] at h7
            exact absurd h7 (by simp [SplitOutcome.isErr])
          | ffmpegErr m =>
            simp [tryBody, findByIdAndUpdate, splitStep, hw1, hdl, hw2, hex, hsp]
            refine ⟨2, by decide, rfl, rfl, rfl, by simp, fun h => absurd h (by decide),
              fun _ => rfl, ?_,
              Or.inr (Or.inr ⟨rfl, rfl, Or.inr ⟨[], by simp, rfl⟩⟩)⟩
            rintro ⟨-, -, -, -, -, -, h7, -⟩
            rw [hsp] at h7
            exact absurd h7 (by simp [SplitOutcome.isErr])
          | noChunksLarge =>
            simp [tryBody, findByIdAndUpdate, splitStep, hw1, hdl, hw2, hex, hsp]
            refine ⟨2, by decide, rfl, rfl, rfl, by simp, fun h => absurd h (by decide),
              fun _ => rfl, ?_,
              Or.inr (Or.inr ⟨rfl, rfl, Or.inr ⟨[], by simp, rfl⟩⟩)⟩
            rintro ⟨-, -, -, -, -, -, h7, -⟩
            rw [hsp] at h7
            exact absurd h7 (by simp [SplitOutcome.isErr])
          | noChunksSmall =>
            simp only [tryBody, findByIdAndUpdate, splitStep, hw1, hdl, hw2,
              hex, hsp]
            exact tryTail_spec env taskId fs0 _ rfl rfl
              (Or.inr (Or.inr ⟨rfl, rfl, Or.inr ⟨[], by simp, rfl⟩⟩))
              hdl hex (by rw [hsp]; rfl)
          | chunksProduced kc =>
            simp only [tryBody, findByIdAndUpdate, splitStep, hw1, hdl, hw2,
              hex, hsp]
            exact tryTail_spec env taskId fs0 _ rfl rfl
              (Or.inr (Or.inr ⟨rfl, rfl,
                Or.inr ⟨chunkPathList taskId (kc + 1), chunkPathList_spec, rfl⟩⟩))
              hdl hex (by rw [hsp]; rfl)

/-- Characterization of a full `processVideoTask` run: no exception escapes;
the event trace is a prefix of the pipeline writes, followed by a `FAILED`
write exactly when the `try` block threw and the `FAILED` write applied,
followed by the two cleanup events; and the final record matches the last
successful write. -/
theorem run_spec (env : Env) (taskId : String) (fs0 : List FsPath) :
    (processVideoTask env taskId (initState fs0)).2 = none ∧
    (processVideoTask env taskId (initState fs0)).1.store.text = none ∧
    ∃ k fEv, k ≤ 4 ∧
      (processVideoTask env taskId (initState fs0)).1.events =
        ((pipelineOrder.take k).map Event.write) ++
        ((if fEv then [Event.write Status.FAILED] else []) ++
         [Event.cleanupFilesRun, Event.cleanupChunksRun]) ∧
      ((tryBody env taskId (initState fs0)).2 = none ↔ k = 4) ∧
      (fEv = true ↔ (k ≠ 4 ∧ env.writeOutcome .FAILED = .ok)) ∧
      (k = 4 →
        (processVideoTask env taskId (initState fs0)).1.store.status = .DONE ∧
        (∃ t, env.transcribeRes = Except.ok (some t)) ∧
        (processVideoTask env taskId (initState fs0)).1.store.errorMessage = none) ∧
      (fEv = true →
        (processVideoTask env taskId (initState fs0)).1.store.status = .FAILED ∧
        (∃ m, (processVideoTask env taskId (initState fs0)).1.store.errorMessage =
          some ("Task failed: " ++ m))) ∧
      (k ≠ 4 → fEv = false →
        (processVideoTask env taskId (initState fs0)).1.store.status =
          ((pipelineOrder.take k).getLast?).getD Status.PENDING ∧
        (processVideoTask env taskId (initState fs0)).1.store.errorMessage = none) ∧
      (envAllOk env → k = 4) ∧
      (k = 4 → stageThrows env = false) := by
  obtain ⟨k, hk4, hev, hst, htext, hiff, h4, hne, hallok, hshape⟩ :=
    tryBody_spec env taskId fs0
  rcases htb : tryBody env taskId (initState fs0) with ⟨s, th⟩
  rw [htb] at hev hst htext hiff h4 hne hshape
  simp only at hev hst htext hiff h4 hne hshape
  cases th with
  | none =>
    have hk : k = 4 := hiff.1 rfl
    subst hk
    obtain ⟨fs', hfin⟩ := finallyBlock_spec env taskId s
    have hrun : processVideoTask env taskId (initState fs0) =
        ({ store := s.store, fs := fs',
           events := s.events ++ [.cleanupFilesRun, .cleanupChunksRun],
           tempVideoPath := s.tempVideoPath, tempFullPath := s.tempFullPath },
         none) := by
      unfold processVideoTask
      rw [htb]
      simp [hfin]
    rw [hrun]
    obtain ⟨t, ht, herr, hd, hx, hsperr⟩ := h4 rfl
    refine ⟨rfl, htext, 4, false, by decide, ?_, by simp, by simp, ?_, ?_, ?_,
      ?_, ?_⟩
    · rw [hev]
      simp
    · intro _
      exact ⟨by simpa [pipelineOrder] using hst, ⟨t, ht⟩, herr⟩
    · intro h
      exact absurd h (by decide)
    · intro h
      exact absurd rfl h
    · intro _
      rfl
    · intro _
      simp [stageThrows, hd, hx, hsperr, ht, Except.isOk, Except.toBool]
  | some m =>
    have hk : k ≠ 4 := fun hh => Option.noConfusion (hiff.2 hh)
    by_cases hfw : env.writeOutcome Status.FAILED = .ok
    · have hs2 := catchBlock_ok env s m hfw
      obtain ⟨fs', hfin⟩ := finallyBlock_spec env taskId (catchBlock env s m)
      rw [hs2] at hfin
      have hrun : processVideoTask env taskId (initState fs0) =
          ({ store := { s.store with
                        status := .FAILED,
                        errorMessage := some ("Task failed: " ++ m) },
             fs := fs',
             events := (s.events ++ [Event.write Status.FAILED]) ++
               [.cleanupFilesRun, .cleanupChunksRun],
             tempVideoPath := s.tempVideoPath,
             tempFullPath := s.tempFullPath }, none) := by
        unfold processVideoTask
        rw [htb]
        simp [hs2, hfin]
      rw [hrun]
      refine ⟨rfl, htext, k, true, hk4, ?_, by simp [hk], by simp [hk, hfw],
        ?_, ?_, ?_, ?_, ?_⟩
      · rw [hev]
        simp
      · intro h
        exact absurd h hk
      · intro _
        exact ⟨rfl, ⟨m, rfl⟩⟩
      · intro _ h
        exact absurd h (by decide)
      · intro h
        exact absurd (hallok h) hk
      · intro h
        exact absurd h hk
    · have hs2 := catchBlock_notOk env s m hfw
      obtain ⟨fs', hfin⟩ := finallyBlock_spec env taskId (catchBlock env s m)
      rw [hs2] at hfin
      have hrun : processVideoTask env taskId (initState fs0) =
          ({ store := s.store, fs := fs',
             events := s.events ++ [.cleanupFilesRun, .cleanupChunksRun],
             tempVideoPath := s.tempVideoPath,
             tempFullPath := s.tempFullPath }, none) := by
        unfold processVideoTask
        rw [htb]
        simp [hs2, hfin]
      rw [hrun]
      refine ⟨rfl, htext, k, false, hk4, ?_, by simp [hk], by simp [hfw],
        ?_, ?_, ?_, ?_, ?_⟩
      · rw [hev]
        simp
      · intro h
        exact absurd h hk
      · intro h
        exact absurd h (by decide)
      · intro _ _
        exact ⟨hst, hne hk⟩
      · intro h
        exact absurd (hallok h) hk
      · intro h
        exact absurd h hk

theorem statusWrites_append (a b : List Event) :
    statusWrites (a ++ b) = statusWrites a ++ statusWrites b := by
  simp [statusWrites, List.filterMap_append]

theorem statusWrites_writes (ws : List Status) :
    statusWrites (ws.map Event.write) = ws := by
  induction ws with
  | nil => rfl
  | cons a as ih => simp [statusWrites, List.filterMap_cons] at ih ⊢; exact ih

theorem statusWrites_tail (fEv : Bool) :
    statusWrites ((if fEv then [Event.write Status.FAILED] else []) ++
      [Event.cleanupFilesRun, Event.cleanupChunksRun]) =
      (if fEv then [Status.FAILED] else []) := by
  cases fEv <;> rfl

/-- A concrete fault-free filesystem environment for witnesses. -/
def sampleFsEnv : FsEnv :=
  { existsFails := fun _ => false, removeFails := fun _ => false }

/-- A concrete environment in which every write and stage succeeds. -/
def sampleEnvOk : Env :=
  { suffix := ".mp4", downloadRes := .ok (), extractRes := .ok (),
    splitRes := .chunksProduced 1, transcribeRes := .ok (some "hello world"),
    writeOutcome := fun _ => .ok, fsEnv := sampleFsEnv }

/-- A concrete environment whose download stage throws and whose store
writes all apply. -/
def sampleEnvFail : Env :=
  { suffix := ".mp4", downloadRes := .error "connect ETIMEDOUT",
    extractRes := .ok (), splitRes := .chunksProduced 1,
    transcribeRes := .ok (some "hello world"),
    writeOutcome := fun _ => .ok, fsEnv := sampleFsEnv }

/-- A concrete environment whose extraction stage throws and whose `FAILED`
write is rejected by the store. -/
def sampleEnvFailNoWrite : Env :=
  { suffix := ".mp4", downloadRes := .ok (),
    extractRes := .error "ffmpeg error: exit 1",
    splitRes := .chunksProduced 1, transcribeRes := .ok (some "hello world"),
    writeOutcome := fun st => if st = .FAILED then .dbError else .ok,
    fsEnv := sampleFsEnv }

/-- C3: for every task, the persisted status only moves forward along
PENDING → DOWNLOADING → EXTRACTING_AUDIO → TRANSCRIBING → DONE with FAILED
reachable from any non-terminal state, no status is re-entered, and no
status write happens after a terminal status was written: the sequence of
persisted statuses (creation's PENDING followed by every successful status
write of the run, in order) is strictly increasing in stage rank, and only
its last element can be terminal. -/
theorem C3_status_monotonic (env : Env) (taskId : String) (fs0 : List FsPath) :
    List.Chain' (fun a b => a.rank < b.rank)
      (Status.PENDING ::
        statusWrites (processVideoTask env taskId (initState fs0)).1.events) ∧
    ∀ s ∈ (Status.PENDING ::
        statusWrites (processVideoTask env taskId (initState fs0)).1.events).dropLast,
      s.isTerminal = false := by
  obtain ⟨-, -, k, fEv, hk4, hev, -, hfiff, -, -, -, -, -⟩ :=
    run_spec env taskId fs0
  rw [hev, statusWrites_append, statusWrites_writes, statusWrites_tail]
  interval_cases k <;> cases fEv <;>
    first
      | exact ⟨by simp [pipelineOrder, List.chain'_cons, Status.rank], by decide⟩
      | exact absurd ((hfiff.1 rfl).1) (by simp)

/-- C3 witness: the property evaluated on a concrete failing run. -/
theorem C3_status_monotonic_witness :
    List.Chain' (fun a b => a.rank < b.rank)
      (Status.PENDING ::
        statusWrites (processVideoTask sampleEnvFail "t1" (initState [])).1.events) ∧
    ∀ s ∈ (Status.PENDING ::
        statusWrites (processVideoTask sampleEnvFail "t1" (initState [])).1.events).dropLast,
      s.isTerminal = false :=
  C3_status_monotonic sampleEnvFail "t1" []

/-- C4 (code bug): when every pipeline stage succeeds the run persists
`DONE` with a null error field, but the result payload is never stored: the
`DONE` update's `transcript` field is not a path of `taskSchema` (whose
result field is `text`), so mongoose strict mode strips it and the stored
`text` remains null on every run whatsoever — against the controller's own
"store result" comment and `getTaskResult`'s reading of a transcript. -/
theorem C4_result_never_stored (env : Env) (taskId : String)
    (fs0 : List FsPath) :
    (envAllOk env →
      (processVideoTask env taskId (initState fs0)).1.store.status = Status.DONE ∧
      (∃ t, env.transcribeRes = Except.ok (some t)) ∧
      (processVideoTask env taskId (initState fs0)).1.store.errorMessage = none) ∧
    (processVideoTask env taskId (initState fs0)).1.store.text = none := by
  obtain ⟨-, htext, k, fEv, hk4, hev, hiff, hfiff, h4, hfail, hrest, hallok, -⟩ :=
    run_spec env taskId fs0
  exact ⟨fun h => h4 (hallok h), htext⟩

/-- C4 witness: a fully successful concrete run ends `DONE` with a null
error, yet the stored `text` is still null — no transcript was persisted. -/
theorem C4_result_never_stored_witness :
    envAllOk sampleEnvOk ∧
    (processVideoTask sampleEnvOk "t1" (initState [])).1.store.status = Status.DONE ∧
    (∃ t, sampleEnvOk.transcribeRes = Except.ok (some t)) ∧
    (processVideoTask sampleEnvOk "t1" (initState [])).1.store.errorMessage = none ∧
    (processVideoTask sampleEnvOk "t1" (initState [])).1.store.text = none := by
  have hallok : envAllOk sampleEnvOk :=
    ⟨rfl, rfl, rfl, rfl, rfl, rfl, rfl, "hello world", rfl⟩
  have h := C4_result_never_stored sampleEnvOk "t1" []
  obtain ⟨h1, h2, h3⟩ := h.1 hallok
  exact ⟨hallok, h1, h2, h3, h.2⟩

/-- C1: whenever a pipeline stage throws, the exception never escapes the
background routine; if the `FAILED` store write applies, the record is
`FAILED` with a human-readable message, written before the cleanup events;
if the `FAILED` write itself fails, the record keeps the last successfully
persisted status (which is neither `FAILED` nor `DONE`). -/
theorem C1_stage_failure (env : Env) (taskId : String) (fs0 : List FsPath)
    (hThrow : stageThrows env = true) :
    (processVideoTask env taskId (initState fs0)).2 = none ∧
    (env.writeOutcome .FAILED = .ok →
      (processVideoTask env taskId (initState fs0)).1.store.status = Status.FAILED ∧
      (∃ m, (processVideoTask env taskId (initState fs0)).1.store.errorMessage =
        some ("Task failed: " ++ m)) ∧
      (∃ pre, (processVideoTask env taskId (initState fs0)).1.events =
        pre ++ [Event.write Status.FAILED, Event.cleanupFilesRun,
          Event.cleanupChunksRun])) ∧
    (env.writeOutcome .FAILED ≠ .ok →
      (processVideoTask env taskId (initState fs0)).1.store.status ≠ Status.FAILED ∧
      (processVideoTask env taskId (initState fs0)).1.store.status ≠ Status.DONE ∧
      (processVideoTask env taskId (initState fs0)).1.store.status =
        ((statusWrites (processVideoTask env taskId (initState fs0)).1.events).getLast?).getD
          Status.PENDING) := by
  obtain ⟨hesc, -, k, fEv, hk4, hev, hiff, hfiff, h4, hfail, hrest, hallok,
    hstage⟩ := run_spec env taskId fs0
  have hk : k ≠ 4 := fun h => absurd hThrow (by simp [hstage h])
  refine ⟨hesc, ?_, ?_⟩
  · intro hok
    have hfe : fEv = true := hfiff.2 ⟨hk, hok⟩
    obtain ⟨hstat, hmsg⟩ := hfail hfe
    refine ⟨hstat, hmsg, ⟨(pipelineOrder.take k).map Event.write, ?_⟩⟩
    rw [hev, hfe]
    simp
  · intro hok
    have hfe : fEv = false := by
      cases hfe : fEv with
      | true => exact absurd (hfiff.1 hfe).2 hok
      | false => rfl
    obtain ⟨hstat, herr⟩ := hrest hk hfe
    refine ⟨?_, ?_, ?_⟩
    · rw [hstat]
      interval_cases k <;> simp_all <;> decide
    · rw [hstat]
      interval_cases k <;> simp_all <;> decide
    · rw [hev, hfe, statusWrites_append, statusWrites_writes, statusWrites_tail]
      simpa using hstat

/-- C1 witness: a concrete run whose download throws ends `FAILED` with a
message and no escaping exception. -/
theorem C1_stage_failure_witness :
    stageThrows sampleEnvFail = true ∧
    sampleEnvFail.writeOutcome .FAILED = .ok ∧
    ((processVideoTask sampleEnvFail "t1" (initState [])).2 = none ∧
     (processVideoTask sampleEnvFail "t1" (initState [])).1.store.status = Status.FAILED ∧
     (∃ m, (processVideoTask sampleEnvFail "t1" (initState [])).1.store.errorMessage =
       some ("Task failed: " ++ m))) := by
  have h := C1_stage_failure sampleEnvFail "t1" [] (by decide)
  exact ⟨by decide, rfl, h.1, (h.2.1 rfl).1, (h.2.1 rfl).2.1⟩

theorem catchBlock_fields (env : Env) (s : RunState) (m : String) :
    (catchBlock env s m).fs = s.fs ∧
    (catchBlock env s m).tempVideoPath = s.tempVideoPath ∧
    (catchBlock env s m).tempFullPath = s.tempFullPath := by
  unfold catchBlock findByIdAndUpdate
  cases env.writeOutcome Status.FAILED <;> simp

theorem processVideoTask_fs (env : Env) (taskId : String) (fs0 : List FsPath)
    (h3 : env.fsEnv.existsFails (chunkDir taskId) = false)
    (h4 : env.fsEnv.removeFails (chunkDir taskId) = false) :
    ∃ s th, tryBody env taskId (initState fs0) = (s, th) ∧
      ((∀ p, s.tempVideoPath = some p →
          env.fsEnv.existsFails p = false ∧ env.fsEnv.removeFails p = false) →
       (∀ p, s.tempFullPath = some p →
          env.fsEnv.existsFails p = false ∧ env.fsEnv.removeFails p = false) →
       (processVideoTask env taskId (initState fs0)).1.fs =
         removeStep (optRemove (optRemove s.fs s.tempVideoPath) s.tempFullPath)
           (chunkDir taskId)) := by
  rcases htb : tryBody env taskId (initState fs0) with ⟨s, th⟩
  refine ⟨s, th, rfl, ?_⟩
  intro h1 h2
  cases th with
  | none =>
    have hfin := finallyBlock_noFault env taskId s h1 h2 h3 h4
    unfold processVideoTask
    rw [htb]
    simp [hfin]
  | some m =>
    obtain ⟨hpf, hpv, hpt⟩ := catchBlock_fields env s m
    have hfin := finallyBlock_noFault env taskId (catchBlock env s m)
      (by rw [hpv]; exact h1) (by rw [hpt]; exact h2) h3 h4
    unfold processVideoTask
    rw [htb]
    simp [hfin, hpf, hpv, hpt]

/-- A path created transiently for this task: the downloaded video, the
full extracted audio, the chunk directory, or anything under it. -/
def TransientPath (env : Env) (taskId : String) (q : FsPath) : Prop :=
  q = videoPath taskId env.suffix ∨ q = fullAudioPath taskId ∨
  q = chunkDir taskId ∨ chunkDir taskId <+: q

/-- C2: on every exit path of `processVideoTask` — success, stage failure,
or any store-write fault — both cleanup routines run, and (when the
filesystem operations on the task's transient paths do not themselves
fault and no transient path pre-existed) the downloaded video, the full
extracted audio and the chunk directory with everything under it are all
absent from the final filesystem. -/
theorem C2_cleanup_all_paths (env : Env) (taskId : String) (fs0 : List FsPath)
    (hfe : ∀ p, (p = videoPath taskId env.suffix ∨ p = fullAudioPath taskId ∨
        p = chunkDir taskId) →
      env.fsEnv.existsFails p = false ∧ env.fsEnv.removeFails p = false)
    (hfs0 : ∀ q, TransientPath env taskId q → q ∉ fs0) :
    (processVideoTask env taskId (initState fs0)).2 = none ∧
    Event.cleanupFilesRun ∈ (processVideoTask env taskId (initState fs0)).1.events ∧
    Event.cleanupChunksRun ∈ (processVideoTask env taskId (initState fs0)).1.events ∧
    ∀ q, TransientPath env taskId q →
      q ∉ (processVideoTask env taskId (initState fs0)).1.fs := by
  obtain ⟨hesc, -, k, fEv, -, hev, -, -, -, -, -, -, -⟩ :=
    run_spec env taskId fs0
  have hcd := hfe (chunkDir taskId) (Or.inr (Or.inr rfl))
  obtain ⟨s, th, htb, hfs⟩ := processVideoTask_fs env taskId fs0 hcd.1 hcd.2
  obtain ⟨k', -, -, -, -, -, -, -, -, hshape⟩ := tryBody_spec env taskId fs0
  rw [htb] at hshape
  simp only at hshape
  refine ⟨hesc, by rw [hev]; simp, by rw [hev]; simp, ?_⟩
  have hvar1 : ∀ p, s.tempVideoPath = some p →
      env.fsEnv.existsFails p = false ∧ env.fsEnv.removeFails p = false := by
    intro p hp
    rcases hshape with ⟨-, hv, -⟩ | ⟨-, hv, -⟩ | ⟨hv, -, -⟩ <;> rw [hv] at hp
    · cases hp
    · injection hp with hpe
      exact hpe ▸ hfe _ (Or.inl rfl)
    · injection hp with hpe
      exact hpe ▸ hfe _ (Or.inl rfl)
  have hvar2 : ∀ p, s.tempFullPath = some p →
      env.fsEnv.existsFails p = false ∧ env.fsEnv.removeFails p = false := by
    intro p hp
    rcases hshape with ⟨-, -, hv⟩ | ⟨-, -, hv⟩ | ⟨-, hv, -⟩ <;> rw [hv] at hp
    · cases hp
    · cases hp
    · injection hp with hpe
      exact hpe ▸ hfe _ (Or.inr (Or.inl rfl))
  have hfs' := hfs hvar1 hvar2
  intro q hq
  rw [hfs']
  intro hmem
  rcases hshape with ⟨hfseq, hv1, hv2⟩ | ⟨hfseq, hv1, hv2⟩ |
    ⟨hv1, hv2, hfseq | ⟨cs, hcs, hfseq⟩⟩
  · rw [hfseq, hv1, hv2] at hmem
    simp only [optRemove] at hmem
    exact hfs0 q hq (removeStep_subset hmem)
  · rw [hfseq, hv1, hv2] at hmem
    simp only [optRemove] at hmem
    exact hfs0 q hq (clears_vid hmem)
  · rw [hfseq, hv1, hv2] at hmem
    simp only [optRemove] at hmem
    exact hfs0 q hq (clears_nocd (fun h => two_seg_prefix_eq h) hmem)
  · rw [hfseq, hv1, hv2] at hmem
    simp only [optRemove] at hmem
    exact hfs0 q hq (clears_chain hcs (fun h => two_seg_prefix_eq h)
      (fun h => two_seg_prefix_eq h) (fun h => two_seg_prefix_eq h) hmem)

/-- C2 witness: after a fully successful concrete run on an empty initial
filesystem, no transient path remains and both cleanup routines ran. -/
theorem C2_cleanup_all_paths_witness :
    (processVideoTask sampleEnvOk "t1" (initState [])).2 = none ∧
    Event.cleanupFilesRun ∈ (processVideoTask sampleEnvOk "t1" (initState [])).1.events ∧
    Event.cleanupChunksRun ∈ (processVideoTask sampleEnvOk "t1" (initState [])).1.events ∧
    ∀ q, TransientPath sampleEnvOk "t1" q →
      q ∉ (processVideoTask sampleEnvOk "t1" (initState [])).1.fs :=
  C2_cleanup_all_paths sampleEnvOk "t1" []
    (fun _ _ => ⟨rfl, rfl⟩) (fun q _ => by simp)

/-- C5 (code bug): submitTask does reject a missing (or falsy) `videoUrl`
or an unparseable `videoUrl` with status 400 before creating any task
record or spawning any background job — but the acceptance branch is
unreachable: `new Task({ videoUrl })` under strict mode drops `videoUrl`
(not a schema path), leaving the required `url` path unset, so document
validation makes `newTask.save()` deterministically reject and every
well-formed submission is answered 500 with no record persisted and no
background job fired, never 202 with a `PENDING` record. -/
theorem C5_save_always_rejects (env : SubmitEnv) (u : String) :
    ((submitTask env none).1.status = 400 ∧ (submitTask env none).2.1 = none ∧
      (submitTask env none).2.2 = none) ∧
    ((submitTask env (some "")).1.status = 400 ∧
      (submitTask env (some "")).2.1 = none ∧
      (submitTask env (some "")).2.2 = none) ∧
    (u ≠ "" → env.urlParses u = false →
      (submitTask env (some u)).1.status = 400 ∧
      (submitTask env (some u)).2.1 = none ∧
      (submitTask env (some u)).2.2 = none) ∧
    (u ≠ "" → env.urlParses u = true →
      validateTask initialTask = false ∧
      (submitTask env (some u)).1.status = 500 ∧
      (submitTask env (some u)).2.1 = none ∧
      (submitTask env (some u)).2.2 = none) := by
  refine ⟨⟨rfl, rfl, rfl⟩, ⟨?_, ?_, ?_⟩, ?_, ?_⟩
  · simp [submitTask]
  · simp [submitTask]
  · simp [submitTask]
  · intro h1 h2
    refine ⟨?_, ?_, ?_⟩ <;> simp [submitTask, h1, h2]
  · intro h1 h2
    refine ⟨rfl, ?_, ?_, ?_⟩ <;>
      simp [submitTask, h1, h2, validateTask, initialTask]

/-- A concrete submission environment for the C5 witness. -/
def sampleSubmitEnv : SubmitEnv :=
  { urlParses := fun s => s = "http://example.com/v.mp4", dbSaveOk := true,
    newId := "task-1" }

/-- C5 witness: a concrete invalid submission is rejected with 400 and no
record; a concrete well-formed submission is answered 500 with no record
and no background job, because the constructed document fails the
required-`url` validation. -/
theorem C5_save_always_rejects_witness :
    ("http://example.com/v.mp4" ≠ "" ∧
      sampleSubmitEnv.urlParses "http://example.com/v.mp4" = true) ∧
    (validateTask initialTask = false ∧
      (submitTask sampleSubmitEnv (some "http://example.com/v.mp4")).1.status = 500 ∧
      (submitTask sampleSubmitEnv (some "http://example.com/v.mp4")).2.1 = none ∧
      (submitTask sampleSubmitEnv (some "http://example.com/v.mp4")).2.2 = none) ∧
    ("not a url" ≠ "" ∧ sampleSubmitEnv.urlParses "not a url" = false) ∧
    (submitTask sampleSubmitEnv (some "not a url")).1.status = 400 ∧
    (submitTask sampleSubmitEnv (some "not a url")).2.1 = none := by
  have h := C5_save_always_rejects sampleSubmitEnv "http://example.com/v.mp4"
  have h2 := C5_save_always_rejects sampleSubmitEnv "not a url"
  refine ⟨⟨by decide, by decide⟩, ?_, ⟨by decide, by decide⟩, ?_, ?_⟩
  · exact h.2.2.2 (by decide) (by decide)
  · exact (h2.2.2.1 (by decide) (by decide)).1
  · exact (h2.2.2.1 (by decide) (by decide)).2.1

/-- Concatenation of a list of strings (the repeated `combinedTranscript +=`
of the transcription loop, viewed as one append per contributing chunk). -/
def concatTexts : List String → String
  | [] => ""
  | t :: ts => t ++ concatTexts ts

theorem transcribeLoop_eq :
    ∀ (chunks : List ChunkData) (acc : String),
      transcribeLoop acc chunks =
        acc ++ concatTexts
          (((chunks.filter fun c => !chunkSkipped c).filterMap chunkText).map
            fun t => t ++ " ") := by
  intro chunks
  induction chunks with
  | nil => intro acc; simp [transcribeLoop, concatTexts]
  | cons c rest ih =>
    intro acc
    rcases hst : c.statRes with e | size
    · simp [transcribeLoop, hst, chunkSkipped, ih]
    · by_cases hsz : 25 * 1024 * 1024 ≤ size
      · simp [transcribeLoop, hst, hsz, chunkSkipped, ih]
      · by_cases hz : size = 0
        · simp [transcribeLoop, hst, hsz, hz, chunkSkipped, ih]
        · rcases hapi : c.apiRes with e | ot
          · simp [transcribeLoop, hst, hsz, hz, hapi, chunkSkipped, ih]
          · cases ot with
            | none =>
              simp [transcribeLoop, hst, hsz, hz, hapi, chunkSkipped,
                chunkText, ih]
            | some t =>
              by_cases ht : t = ""
              · simp [transcribeLoop, hst, hsz, hz, hapi, ht, chunkSkipped,
                  chunkText, ih]
              · simp [transcribeLoop, hst, hsz, hz, hapi, ht, chunkSkipped,
                  chunkText, ih, concatTexts, String.append_assoc]

/-- C6: with the API key configured, `transcribeAudio` never rejects and
returns exactly the (trimmed) concatenation of the transcripts of the
non-skipped chunks, each followed by the separating space — a chunk whose
`fs.stat` rejects, whose size is at or above the 25 MB limit or zero, or
whose transcription request throws, is skipped, and the stage still
resolves with this partial result. -/
theorem C6_skip_and_continue (key : Option String) (chunks : List ChunkData)
    (hkey : jsFalsyKey key = false) :
    transcribeAudio key chunks =
      .ok (jsTrim (concatTexts
        (((chunks.filter fun c => !chunkSkipped c).filterMap chunkText).map
          fun t => t ++ " "))) ∧
    (∀ c ∈ chunks, chunkSkipped c = true →
      c ∉ chunks.filter fun c => !chunkSkipped c) ∧
    (transcribeAudio key chunks).isOk = true := by
  have hmain : transcribeAudio key chunks =
      .ok (jsTrim (concatTexts
        (((chunks.filter fun c => !chunkSkipped c).filterMap chunkText).map
          fun t => t ++ " "))) := by
    simp [transcribeAudio, hkey, transcribeLoop_eq]
  refine ⟨hmain, ?_, ?_⟩
  · intro c _ hskip hmem
    rw [List.mem_filter] at hmem
    rw [hskip] at hmem
    simp at hmem
  · rw [hmain]
    rfl

/-- Concrete chunk data for witnesses: an oversized chunk, an empty chunk, a
chunk whose request throws, one whose response has no text, and two
successfully transcribed chunks. -/
def sampleChunks : List ChunkData :=
  [{ path := [tempDir, "t1_chunks", "chunk_000.mp3"],
     statRes := .ok (25 * 1024 * 1024), apiRes := .ok (some "dropped") },
   { path := [tempDir, "t1_chunks", "chunk_001.mp3"],
     statRes := .ok 0, apiRes := .ok (some "dropped too") },
   { path := [tempDir, "t1_chunks", "chunk_002.mp3"],
     statRes := .ok 512, apiRes := .error "api down" },
   { path := [tempDir, "t1_chunks", "chunk_003.mp3"],
     statRes := .ok 512, apiRes := .ok none },
   { path := [tempDir, "t1_chunks", "chunk_004.mp3"],
     statRes := .ok 512, apiRes := .ok (some "hello") },
   { path := [tempDir, "t1_chunks", "chunk_005.mp3"],
     statRes := .ok 512, apiRes := .ok (some "world") }]

/-- C6 witness: on the concrete chunk list the stage resolves with the
partial transcript "hello world" despite three failing/oversized/empty
chunks. -/
theorem C6_skip_and_continue_witness :
    jsFalsyKey (some "gsk_test") = false ∧
    transcribeAudio (some "gsk_test") sampleChunks =
      .ok (jsTrim (concatTexts
        (((sampleChunks.filter fun c => !chunkSkipped c).filterMap chunkText).map
          fun t => t ++ " "))) ∧
    transcribeAudio (some "gsk_test") sampleChunks = .ok "hello world" := by
  have h := C6_skip_and_continue (some "gsk_test") sampleChunks (by decide)
  exact ⟨by decide, h.1, by rw [h.1]; rfl⟩

/-- C9 (amended): when every chunk is skipped, `transcribeAudio` returns
the empty string (never null or undefined), so the null/undefined guard of
`processVideoTask` does not fire and the task is persisted as `DONE`
instead of `FAILED` — but not "with an empty transcript": the `DONE`
update's `transcript` field is not a path of `taskSchema` and is stripped
by strict mode, so the stored result field `text` remains null. -/
theorem C9_all_skipped_done (key : Option String) (chunks : List ChunkData)
    (env : Env) (taskId : String) (fs0 : List FsPath)
    (hkey : jsFalsyKey key = false)
    (hskip : ∀ c ∈ chunks, chunkSkipped c = true)
    (henv : envAllOk env)
    (htr : env.transcribeRes = Except.ok (some "")) :
    transcribeAudio key chunks = .ok "" ∧
    (processVideoTask env taskId (initState fs0)).1.store.status = Status.DONE ∧
    (processVideoTask env taskId (initState fs0)).1.store.text = none ∧
    (processVideoTask env taskId (initState fs0)).1.store.errorMessage = none := by
  have hfil : (chunks.filter fun c => !chunkSkipped c) = [] := by
    rw [List.filter_eq_nil_iff]
    intro c hc
    simp [hskip c hc]
  have h1 : transcribeAudio key chunks = .ok "" := by
    simp [transcribeAudio, hkey, transcribeLoop_eq, hfil, concatTexts]
    rfl
  obtain ⟨-, htext, k, fEv, -, -, -, -, h4, -, -, hallok, -⟩ :=
    run_spec env taskId fs0
  obtain ⟨hstat, -, herr⟩ := h4 (hallok henv)
  exact ⟨h1, hstat, htext, herr⟩

/-- A concrete environment for the C9 artifacts: all stages succeed and the
transcription stage produced the empty string. -/
def sampleEnvEmptyTr : Env :=
  { sampleEnvOk with transcribeRes := .ok (some "") }

/-- Concrete chunk data in which every chunk is skipped. -/
def sampleChunksAllSkipped : List ChunkData :=
  [{ path := [tempDir, "t1_chunks", "chunk_000.mp3"],
     statRes := .ok (25 * 1024 * 1024), apiRes := .ok (some "dropped") },
   { path := [tempDir, "t1_chunks", "chunk_001.mp3"],
     statRes := .ok 0, apiRes := .ok (some "dropped too") },
   { path := [tempDir, "t1_chunks", "chunk_002.mp3"],
     statRes := .ok 512, apiRes := .error "api down" }]

/-- C9 counterexample to the original claim: on a concrete all-skipped run
the stage returns the empty string and the task is persisted `DONE`, yet
the stored result field is null, not an empty transcript. -/
theorem C9_counterexample :
    transcribeAudio (some "gsk_test") sampleChunksAllSkipped = .ok "" ∧
    (processVideoTask sampleEnvEmptyTr "t1" (initState [])).1.store.status =
      Status.DONE ∧
    ¬ ((processVideoTask sampleEnvEmptyTr "t1" (initState [])).1.store.text =
      some "") := by
  refine ⟨rfl, by decide, by decide⟩

/-- C9 witness: the concrete all-skipped run returns the empty string and
the concrete pipeline run ends `DONE` with a null stored text. -/
theorem C9_all_skipped_done_witness :
    jsFalsyKey (some "gsk_test") = false ∧
    (∀ c ∈ sampleChunksAllSkipped, chunkSkipped c = true) ∧
    transcribeAudio (some "gsk_test") sampleChunksAllSkipped = .ok "" ∧
    (processVideoTask sampleEnvEmptyTr "t1" (initState [])).1.store.status =
      Status.DONE ∧
    (processVideoTask sampleEnvEmptyTr "t1" (initState [])).1.store.text =
      none := by
  have henv : envAllOk sampleEnvEmptyTr :=
    ⟨rfl, rfl, rfl, rfl, rfl, rfl, rfl, "", rfl⟩
  have h := C9_all_skipped_done (some "gsk_test") sampleChunksAllSkipped
    sampleEnvEmptyTr "t1" [] (by decide) (by decide) henv rfl
  exact ⟨by decide, by decide, h.1, h.2.1, h.2.2.1⟩

/-- C10: `cleanupFiles` and `cleanupChunks` never reject — for every fault
model, filesystem and path list (null entries included) they resolve;
missing paths are no-ops; and consequently the `finally` block of
`processVideoTask` always resolves and never changes the already-recorded
task state. -/
theorem C10_cleanup_never_throws (fe : FsEnv) (fs : List FsPath)
    (ps : List (Option FsPath)) (taskId : String) (p : FsPath) :
    (∃ fs2, cleanupFiles fe fs ps = .ok fs2) ∧
    (∃ fs3, cleanupChunks fe fs taskId = .ok fs3) ∧
    cleanupFiles fe fs [none] = .ok fs ∧
    (p ∉ fs → cleanupFiles fe fs [some p] = .ok fs) ∧
    (chunkDir taskId ∉ fs → cleanupChunks fe fs taskId = .ok fs) ∧
    (∀ env s, ∃ s', finallyBlock env taskId s = .ok s' ∧
      s'.store = s.store) := by
  refine ⟨cleanupFiles_isOk fe ps fs, cleanupChunks_isOk fe fs taskId, rfl,
    ?_, ?_, ?_⟩
  · intro hnp
    by_cases hef : fe.existsFails p = true
    · simp [cleanupFiles, removeIfExists, hef]
    · simp at hef
      simp [cleanupFiles, removeIfExists, hef, hnp]
  · intro hnp
    by_cases hef : fe.existsFails (chunkDir taskId) = true
    · simp [cleanupChunks, removeIfExists, hef]
    · simp at hef
      simp [cleanupChunks, removeIfExists, hef, hnp]
  · intro env s
    obtain ⟨fs', hfin⟩ := finallyBlock_spec env taskId s
    exact ⟨_, hfin, rfl⟩

/-- C10 witness: the concrete no-op cases evaluated. -/
theorem C10_cleanup_never_throws_witness :
    (["gone"] : FsPath) ∉ ([[tempDir, "other"]] : List FsPath) ∧
    chunkDir "t9" ∉ ([[tempDir, "other"]] : List FsPath) ∧
    cleanupFiles sampleFsEnv [[tempDir, "other"]] [some ["gone"]] =
      .ok [[tempDir, "other"]] ∧
    cleanupChunks sampleFsEnv [[tempDir, "other"]] "t9" =
      .ok [[tempDir, "other"]] := by
  have h := C10_cleanup_never_throws sampleFsEnv [[tempDir, "other"]]
    [some ["gone"], none] "t9" ["gone"]
  exact ⟨by decide, by decide, h.2.2.2.1 (by decide),
    (C10_cleanup_never_throws sampleFsEnv [[tempDir, "other"]] [] "t9"
      ["gone"]).2.2.2.2.1 (by decide)⟩

/-- C7 counterexample: not every outbound network call of the pipeline
carries an explicit timeout — the Groq transcription request is made by a
client constructed with only an API key and passes no timeout option. -/
theorem C7_counterexample :
    ¬ ∀ c ∈ pipelineNetCalls, c.timeoutMs.isSome = true := by
  intro h
  have hg := h groqNetCall (by simp [pipelineNetCalls])
  simp [groqNetCall] at hg

/-- C7 amended: the content download passes `config.downloadTimeout` to the
HTTP client; an axios timeout rejects the download with a human-readable
message; and a download rejection makes the run persist `FAILED` (when the
`FAILED` write applies) rather than hanging — but the Groq transcription
request carries no explicit timeout in the code. -/
theorem C7_download_timeout (env : Env) (taskId : String) (fs0 : List FsPath)
    (suffix m : String)
    (hdl : env.downloadRes = Except.error m)
    (hfw : env.writeOutcome .FAILED = .ok) :
    downloadNetCall.timeoutMs = some downloadTimeout ∧
    downloadVideoFromUrl .timeoutNoResponse taskId suffix =
      .error "Download failed: No response received from server." ∧
    groqNetCall.timeoutMs = none ∧
    (processVideoTask env taskId (initState fs0)).1.store.status =
      Status.FAILED := by
  refine ⟨rfl, rfl, rfl, ?_⟩
  obtain ⟨-, -, k, fEv, -, -, -, hfiff, -, hfail, -, -, hstage⟩ :=
    run_spec env taskId fs0
  have hthrow : stageThrows env = true := by
    simp [stageThrows, hdl, Except.isOk, Except.toBool]
  have hk : k ≠ 4 := fun h => absurd hthrow (by simp [hstage h])
  exact (hfail (hfiff.2 ⟨hk, hfw⟩)).1

/-- C7 witness: the concrete timed-out download run ends `FAILED`. -/
theorem C7_download_timeout_witness :
    sampleEnvFail.downloadRes = Except.error "connect ETIMEDOUT" ∧
    sampleEnvFail.writeOutcome .FAILED = .ok ∧
    downloadNetCall.timeoutMs = some downloadTimeout ∧
    (processVideoTask sampleEnvFail "t1" (initState [])).1.store.status =
      Status.FAILED := by
  have h := C7_download_timeout sampleEnvFail "t1" [] ".mp4"
    "connect ETIMEDOUT" rfl rfl
  exact ⟨rfl, rfl, h.1, h.2.2.2⟩

end STT

namespace AgentRegistry

/-- One declared skill of an agent card. -/
structure AgentSkill where
  id : String
  name : String
  description : String
  examples : List String
deriving DecidableEq, Repr

/-- The capability descriptor fetched from an agent's
`/.well-known/agent.json` (fields from the README's AgentCard example). -/
structure AgentCard where
  name : String
  description : String
  url : String
  version : String
  skills : List AgentSkill
deriving DecidableEq, Repr

/-- A stored registry entry for one agent. -/
structure AgentRecord where
  url : String
  card : AgentCard
  registeredAt : Nat
  lastRefreshedAt : Nat
deriving DecidableEq, Repr

/-- Modelled from the spec: `register(url)` of the Agent Registry.  The
registry service's implementation is not among the repository's source
files (only its README and test script are), so this follows §4.3 of the
spec: after the descriptor fetch and validation produced `card`, upsert by
url — an existing record for the url gets `card` replaced and
`lastRefreshedAt` bumped (last-writer-wins), otherwise a new record is
appended; never a duplicate. -/
def register (reg : List AgentRecord) (url : String) (card : AgentCard)
    (now : Nat) : List AgentRecord :=
  match reg with
  | [] => [{ url := url, card := card, registeredAt := now,
             lastRefreshedAt := now }]
  | r :: rest =>
    if r.url = url then
      { r with card := card, lastRefreshedAt := now } :: rest
    else r :: register rest url card now

/-- Modelled from the spec: `list()` returns all records. -/
def listAgents (reg : List AgentRecord) : List AgentRecord := reg

end AgentRegistry

namespace AgentRegistry

theorem register_filter (u : String) (c : AgentCard) (t : Nat) :
    ∀ reg : List AgentRecord,
      reg.countP (fun r => r.url = u) ≤ 1 →
      ∃ ra, (register reg u c t).filter (fun r => r.url = u) = [ra] ∧
        ra.url = u ∧ ra.card = c ∧
        (register reg u c t).countP (fun r => r.url = u) ≤ 1 := by
  intro reg
  induction reg with
  | nil =>
    intro _
    refine ⟨{ url := u, card := c, registeredAt := t, lastRefreshedAt := t },
      ?_, rfl, rfl, ?_⟩ <;> simp [register]
  | cons r rest ih =>
    intro h
    by_cases hr : r.url = u
    · have hcount : rest.countP (fun r => r.url = u) = 0 := by
        rw [List.countP_cons, if_pos (by simpa using hr)] at h
        omega
      have hfil : rest.filter (fun r => r.url = u) = [] := by
        rw [List.filter_eq_nil_iff]
        intro a ha
        have := List.countP_eq_zero.1 hcount a ha
        simpa using this
      refine ⟨{ r with card := c, lastRefreshedAt := t }, ?_, hr, rfl, ?_⟩
      · simp [register, hr, List.filter_cons, hfil]
      · simp [register, hr, List.countP_cons, hcount]
    · have hrest : rest.countP (fun r => r.url = u) ≤ 1 := by
        rw [List.countP_cons, if_neg (by simpa using hr)] at h
        omega
      obtain ⟨ra, hfil, hu, hc, hcnt⟩ := ih hrest
      refine ⟨ra, ?_, hu, hc, ?_⟩
      · simp [register, hr, List.filter_cons, hfil]
      · simp [register, hr, List.countP_cons, hcnt]

/-- C8: registering the same url twice (last card wins) leaves exactly one
record for that url in `list()`, and that record's card is the one of the
second call — an idempotent upsert, never a duplicate. -/
theorem C8_register_idempotent (reg : List AgentRecord) (u : String)
    (c1 c2 : AgentCard) (t1 t2 : Nat)
    (hreg : reg.countP (fun r => r.url = u) ≤ 1) :
    ((listAgents (register (register reg u c1 t1) u c2 t2)).filter
      (fun r => r.url = u)).length = 1 ∧
    ∀ r ∈ (listAgents (register (register reg u c1 t1) u c2 t2)).filter
      (fun r => r.url = u), r.card = c2 := by
  obtain ⟨ra1, -, -, -, hcount1⟩ := register_filter u c1 t1 reg hreg
  obtain ⟨ra2, hfil2, -, hc2, -⟩ := register_filter u c2 t2 _ hcount1
  rw [listAgents, hfil2]
  refine ⟨rfl, ?_⟩
  intro r hr
  rw [List.mem_singleton] at hr
  rw [hr]
  exact hc2

/-- A first concrete descriptor version for the C8 witness. -/
def cardV1 : AgentCard :=
  { name := "PDF Summarizer Agent", description := "Summarizes PDF documents",
    url := "http://a.test", version := "1.0.0", skills := [] }

/-- A second concrete descriptor version for the C8 witness. -/
def cardV2 : AgentCard :=
  { name := "PDF Summarizer Agent", description := "Summarizes PDF documents",
    url := "http://a.test", version := "2.0.0", skills := [] }

/-- C8 witness: registering `http://a.test` twice with different descriptor
versions leaves one record whose card is the second version. -/
theorem C8_register_idempotent_witness :
    (([] : List AgentRecord).countP (fun r => r.url = "http://a.test") ≤ 1) ∧
    ((listAgents (register (register [] "http://a.test" cardV1 1)
        "http://a.test" cardV2 2)).filter
      (fun r => r.url = "http://a.test")).length = 1 ∧
    (∀ r ∈ (listAgents (register (register [] "http://a.test" cardV1 1)
        "http://a.test" cardV2 2)).filter
      (fun r => r.url = "http://a.test"), r.card = cardV2) :=
  ⟨by decide,
   (C8_register_idempotent [] "http://a.test" cardV1 cardV2 1 2 (by decide)).1,
   (C8_register_idempotent [] "http://a.test" cardV1 cardV2 1 2 (by decide)).2⟩

end AgentRegistry
